import Mathlib

/-!
Shallow embedding of `scripts/automation_proposal.py` (OpenLane flow
automation framework): metrics data model, the three report parsers, the
configuration parameter tuner, and the main iteration loop.

Modelling conventions:
* Python floats are modelled as rationals (`ℚ`); all numeric formulas in the
  source are exact decimal arithmetic, so no rounding behaviour is relevant
  to the claims.
* A file system is a map from path to optional file contents
  (`String → Option String`); `Path.exists()` is `(fs p).isSome`.
* Functions that can raise a Python exception return `Except String _`;
  `.error` models an uncaught exception escaping the function.
* The regular expressions used by the parsers are embedded as explicit
  matchers over `List Char` with Python `re` semantics (leftmost match,
  greedy / lazy quantifiers as in the source patterns, `re.findall`
  returning non-overlapping matches left to right).
-/

/-- `FlowStage` enum from the source: the six ordered pipeline stages. -/
inductive FlowStage where
  | synthesis
  | floorplan
  | placement
  | cts
  | routing
  | signoff
deriving DecidableEq, Repr

/-- `TimingMetrics` dataclass: wns, tns, whs, ths, critical_path_delay, clock_period. -/
structure TimingMetrics where
  wns : ℚ
  tns : ℚ
  whs : ℚ
  ths : ℚ
  critical_path_delay : ℚ
  clock_period : ℚ
deriving DecidableEq, Repr

/-- `TimingMetrics.has_violations`: `self.wns < 0 or self.whs < 0`. -/
def TimingMetrics.has_violations (m : TimingMetrics) : Bool :=
  decide (m.wns < 0) || decide (m.whs < 0)

/-- `AreaMetrics` dataclass: total_cells, total_area, core_area, die_area, utilization. -/
structure AreaMetrics where
  total_cells : ℕ
  total_area : ℚ
  core_area : ℚ
  die_area : ℚ
  utilization : ℚ
deriving DecidableEq, Repr

/-- `RoutingMetrics` dataclass. -/
structure RoutingMetrics where
  drc_violations : ℕ
  antenna_violations : ℕ
  wire_length : ℚ
  via_count : ℕ
  congestion_score : ℚ
deriving DecidableEq, Repr

/-- `StageResult` dataclass: one stage attempt. -/
structure StageResult where
  stage : FlowStage
  success : Bool
  duration : ℚ
  timing : Option TimingMetrics := none
  area : Option AreaMetrics := none
  routing : Option RoutingMetrics := none
  errors : List String := []
  warnings : List String := []
deriving DecidableEq, Repr

/-- A file system: maps a path to the contents of the file at that path,
or `none` when no file exists there. -/
abbrev FileSystem := String → Option String

/-- Python `\s` for the ASCII range: space, tab, newline, carriage return,
vertical tab, form feed. -/
def isPySpace (c : Char) : Bool :=
  c == ' ' || c == '\t' || c == '\n' || c == '\r' || c.toNat == 11 || c.toNat == 12

/-- Character class `[-\d.]` from the timing slack pattern. -/
def isSlackNumChar (c : Char) : Bool :=
  c == '-' || c == '.' || c.isDigit

/-- Character class `[\d.]` from the chip area pattern. -/
def isAreaNumChar (c : Char) : Bool :=
  c.isDigit || c == '.'

/-- Python `int()` on a nonempty string of decimal digits. -/
def digitsToNat (ds : List Char) : ℕ :=
  ds.foldl (fun a c => 10 * a + (c.toNat - 48)) 0

/-- Python `float()` on a string drawn from the character class `[\d.]`:
defined (`some`) iff the string has at least one digit and at most one dot;
`none` models a raised `ValueError`. -/
def pyFloatUnsigned? (s : List Char) : Option ℚ :=
  let dots := (s.filter (fun c => c == '.')).length
  if dots = 0 then
    if s ≠ [] ∧ s.all Char.isDigit then some (digitsToNat s) else none
  else if dots = 1 then
    let ip := s.takeWhile (fun c => c ≠ '.')
    let fp := (s.dropWhile (fun c => c ≠ '.')).tail
    if (ip ++ fp) ≠ [] ∧ (ip ++ fp).all Char.isDigit then
      some ((digitsToNat ip : ℚ) + (digitsToNat fp : ℚ) / (10 ^ fp.length))
    else none
  else none

/-- Python `float()` on a string drawn from the character class `[-\d.]`:
an optional leading minus sign followed by an unsigned float. -/
def pyFloatSigned? (s : List Char) : Option ℚ :=
  match s with
  | '-' :: rest => (pyFloatUnsigned? rest).map (fun q => -q)
  | _ => pyFloatUnsigned? s

/-- Try to match the timing pattern `slack \((MET|VIOLATED)\)\s+([-\d.]+)`
at the head of `l`; on success return the numeric capture and the remaining
input after the whole match.  The quantifiers are greedy, and `\s` and
`[-\d.]` are disjoint character classes, so greedy scanning is exact. -/
def matchSlackAt (l : List Char) : Option (List Char × List Char) :=
  if "slack (".toList.isPrefixOf l then
    let r1 := l.drop "slack (".toList.length
    let afterKw : Option (List Char) :=
      if "MET)".toList.isPrefixOf r1 then some (r1.drop "MET)".toList.length)
      else if "VIOLATED)".toList.isPrefixOf r1 then some (r1.drop "VIOLATED)".toList.length)
      else none
    match afterKw with
    | none => none
    | some r2 =>
      let sp := r2.takeWhile isPySpace
      if sp.isEmpty then none
      else
        let r3 := r2.drop sp.length
        let cap := r3.takeWhile isSlackNumChar
        if cap.isEmpty then none
        else some (cap, r3.drop cap.length)
  else none

/-- Fuel-driven worker for `re.findall` of the slack pattern: scan left to
right, emitting non-overlapping matches and resuming after each match.
Every step strictly shrinks the input (`matchSlackAt_rest_length`), so fuel
equal to the input length never runs out (`findallSlackGo_fuel`). -/
def findallSlackGo : ℕ → List Char → List (List Char)
  | 0, _ => []
  | _ + 1, [] => []
  | fuel + 1, c :: t =>
    match matchSlackAt (c :: t) with
    | some (cap, rest) => cap :: findallSlackGo fuel rest
    | none => findallSlackGo fuel t

/-- `re.findall(r'slack \((MET|VIOLATED)\)\s+([-\d.]+)', content)`, keeping
the numeric capture of each match. -/
def findallSlack (l : List Char) : List (List Char) :=
  findallSlackGo l.length l

/-- The list comprehension `[float(s[1]) for s in slack_matches]`:
left-to-right conversion, `none` when any conversion raises. -/
def parseFloats : List (List Char) → Option (List ℚ)
  | [] => some []
  | c :: rest =>
    match pyFloatSigned? c, parseFloats rest with
    | some q, some qs => some (q :: qs)
    | _, _ => none

/-- Python `min` on a list, as used on the nonempty `slacks` list
(the `[]` case is never reached by the parser). -/
def listMin : List ℚ → ℚ
  | [] => 0
  | x :: xs => xs.foldl min x

/-- Try to match `LIT\s+(\d+)` at the head of `l` (`LIT` a literal with no
repeated structure); on success return the digit capture.  Shared shape of
the `Number of cells:` and `Total DRC violations:` patterns. -/
def matchIntAt (lit : List Char) (l : List Char) : Option (List Char) :=
  if lit.isPrefixOf l then
    let r := l.drop lit.length
    let sp := r.takeWhile isPySpace
    if sp.isEmpty then none
    else
      let cap := (r.drop sp.length).takeWhile Char.isDigit
      if cap.isEmpty then none else some cap
  else none

/-- `re.search` of `LIT\s+(\d+)`: leftmost match, returning its capture. -/
def searchIntAfter (lit : List Char) : List Char → Option (List Char)
  | [] => none
  | c :: t =>
    match matchIntAt lit (c :: t) with
    | some cap => some cap
    | none => searchIntAfter lit t

/-- `re.search(r'Number of cells:\s+(\d+)', content)`, returning the capture. -/
def searchCells (l : List Char) : Option (List Char) :=
  searchIntAfter "Number of cells:".toList l

/-- `re.search(r'Total DRC violations:\s+(\d+)', content)`, returning the capture. -/
def searchDrcTotal (l : List Char) : Option (List Char) :=
  searchIntAfter "Total DRC violations:".toList l

/-- The `:\s+([\d.]+)` suffix of the chip-area pattern, tried at the current
scan position (the scrutinee starts just after a candidate colon). -/
def afterColonArea (r : List Char) : Option (List Char) :=
  let sp := r.takeWhile isPySpace
  if sp.isEmpty then none
  else
    let cap := (r.drop sp.length).takeWhile isAreaNumChar
    if cap.isEmpty then none else some cap

/-- The lazy `.*?:\s+([\d.]+)` tail of the chip-area pattern: at each
position first try to match the colon and its suffix here; on failure
consume one character via `.*?` — which cannot cross a newline — and
retry (this includes backtracking past a colon whose suffix failed). -/
def chipAreaScan : List Char → Option (List Char)
  | [] => none
  | c :: t =>
    match (if c = ':' then afterColonArea t else none) with
    | some cap => some cap
    | none => if c = '\n' then none else chipAreaScan t

/-- `re.search(r"Chip area for module.*?:\s+([\d.]+)", content)`:
leftmost position where the literal matches and the lazy tail succeeds. -/
def searchChipArea : List Char → Option (List Char)
  | [] => none
  | c :: t =>
    match (if "Chip area for module".toList.isPrefixOf (c :: t)
           then chipAreaScan ((c :: t).drop "Chip area for module".toList.length)
           else none) with
    | some cap => some cap
    | none => searchChipArea t

/-- Fuel-driven worker for `len(re.findall(r'\[ERROR\]', content))`:
count non-overlapping occurrences of the literal, left to right. -/
def countErrorTagsGo : ℕ → List Char → ℕ
  | 0, _ => 0
  | _ + 1, [] => 0
  | fuel + 1, c :: t =>
    if "[ERROR]".toList.isPrefixOf (c :: t) then
      1 + countErrorTagsGo fuel ((c :: t).drop "[ERROR]".toList.length)
    else countErrorTagsGo fuel t

/-- Number of occurrences of the literal `[ERROR]` in the input. -/
def countErrorTags (l : List Char) : ℕ :=
  countErrorTagsGo l.length l

/-- `SynthesisReportParser.parse_stat_report`. -/
def parse_stat_report (fs : FileSystem) (report_path : String) :
    Except String (AreaMetrics × List String) :=
  match fs report_path with
  | none => .ok (⟨0, 0, 0, 0, 0⟩, ["Synthesis report not found: " ++ report_path])
  | some content =>
    let total_cells : ℕ :=
      match searchCells content.toList with
      | some cap => digitsToNat cap
      | none => 0
    match searchChipArea content.toList with
    | none => .ok (⟨total_cells, 0, 0, 0, 0⟩, [])
    | some cap =>
      match pyFloatUnsigned? cap with
      | some a => .ok (⟨total_cells, a, 0, 0, 0⟩, [])
      | none => .error "ValueError: could not convert string to float"

/-- `TimingReportParser.parse_sta_report`. -/
def parse_sta_report (fs : FileSystem) (report_path : String) :
    Except String (TimingMetrics × List String) :=
  match fs report_path with
  | none => .ok (⟨0, 0, 0, 0, 0, 10⟩, ["Timing report not found: " ++ report_path])
  | some content =>
    match findallSlack content.toList with
    | [] => .ok (⟨0, 0, 0, 0, 10, 10⟩, [])
    | c :: caps =>
      match parseFloats (c :: caps) with
      | none => .error "ValueError: could not convert string to float"
      | some slacks =>
        let wns := listMin slacks
        let tns := (slacks.filter (fun q => decide (q < 0))).sum
        .ok (⟨wns, tns, 0, 0, if 0 < wns then 10 - wns else 10, 10⟩, [])

/-- `RoutingReportParser.parse_drc_report`.  Note: on a missing file the
source returns `RoutingMetrics(0, 0, 0.0, 0, 0.0), []` — an *empty* error
list, unlike the other two parsers. -/
def parse_drc_report (fs : FileSystem) (report_path : String) :
    Except String (RoutingMetrics × List String) :=
  match fs report_path with
  | none => .ok (⟨0, 0, 0, 0, 0⟩, [])
  | some content =>
    let drc_count : ℕ :=
      match searchDrcTotal content.toList with
      | some cap => digitsToNat cap
      | none => countErrorTags content.toList
    let errs : List String :=
      if 0 < drc_count then ["Found " ++ toString drc_count ++ " DRC violations"] else []
    .ok (⟨drc_count, 0, 0, 0, 0⟩, errs)

/-- An in-memory configuration: an insertion-ordered association list from
parameter name to (numeric) value, modelling the Python dict loaded from
`config.json`.  The claims touch only numeric keys, so values are `ℚ`. -/
abbrev ConfigMap := List (String × ℚ)

/-- Python `dict.get(k, d)`: value of the first entry with key `k`,
or the default `d` when the key is absent. -/
def cfgGet : ConfigMap → String → ℚ → ℚ
  | [], _, d => d
  | kv :: rest, k, d => if kv.1 = k then kv.2 else cfgGet rest k d

/-- Whether the key is present. -/
def cfgMem : ConfigMap → String → Bool
  | [], _ => false
  | kv :: rest, k => if kv.1 = k then true else cfgMem rest k

/-- Replace the value at every entry with key `k` (a dict has at most one). -/
def cfgReplace : ConfigMap → String → ℚ → ConfigMap
  | [], _, _ => []
  | kv :: rest, k, v =>
    if kv.1 = k then (k, v) :: cfgReplace rest k v else kv :: cfgReplace rest k v

/-- Python `d[k] = v` on a dict: update in place when the key exists,
otherwise append the new entry at the end (insertion order). -/
def cfgSet (m : ConfigMap) (k : String) (v : ℚ) : ConfigMap :=
  if cfgMem m k then cfgReplace m k v else m ++ [(k, v)]

/-- State of a `ConfigParameterTuner`: the in-memory `self.config` and the
contents of the external store at `self.config_path` (what `_save_config`
writes). -/
structure TunerState where
  config : ConfigMap
  store : ConfigMap
deriving DecidableEq, Repr

/-- `ConfigParameterTuner.__init__` / `_load_config`: `open(config_path)`
raises when the file is missing, and `json.load` raises when the contents
are not valid JSON; otherwise the parsed map becomes the in-memory config.
The JSON decoder is an external collaborator, abstracted as a
function from file contents to an optional configuration map. -/
def tunerInit (fs : FileSystem) (jsonLoad : String → Option ConfigMap)
    (config_path : String) : Except String TunerState :=
  match fs config_path with
  | none => .error ("FileNotFoundError: " ++ config_path)
  | some content =>
    match jsonLoad content with
    | none => .error "JSONDecodeError"
    | some cfg => .ok ⟨cfg, cfg⟩

/-- `ConfigParameterTuner.adjust_for_routing_congestion`: reads the current
density (default 0.55) and utilization (default 50), applies the floored
decrements, sets `GLB_RT_ADJUSTMENT` to the absolute value 0.20, and then
`_save_config` rewrites the whole map to the external store. -/
def adjust_for_routing_congestion (t : TunerState) : TunerState :=
  let current_density := cfgGet t.config "PL_TARGET_DENSITY" (55/100)
  let new_density := max (40/100) (current_density - 10/100)
  let current_util := cfgGet t.config "FP_CORE_UTIL" 50
  let new_util := max 35 (current_util - 10)
  let c1 := cfgSet t.config "PL_TARGET_DENSITY" new_density
  let c2 := cfgSet c1 "FP_CORE_UTIL" new_util
  let c3 := cfgSet c2 "GLB_RT_ADJUSTMENT" (20/100)
  { config := c3, store := c3 }

/-- `n` repeated calls of `adjust_for_routing_congestion`. -/
def adjustIter : ℕ → TunerState → TunerState
  | 0, t => t
  | n + 1, t => adjustIter n (adjust_for_routing_congestion t)

/-- The fixed stage order of the main loop. -/
def stagesList : List FlowStage :=
  [FlowStage.synthesis, FlowStage.floorplan, FlowStage.placement,
   FlowStage.cts, FlowStage.routing, FlowStage.signoff]

/-- The stage loop of one iteration of `main`: run the stages in order via
the (injected) stage runner, appending every attempt; stop at the first
failed stage, which is recorded.  The analyzer calls performed for
successful stages return suggestion strings that are only printed, so they
have no effect on the loop state and are not modelled. -/
def runStagesGo (runner : FlowStage → StageResult) : List FlowStage → List StageResult × Option FlowStage
  | [] => ([], none)
  | s :: rest =>
    let r := runner s
    if r.success then
      let (hs, f) := runStagesGo runner rest
      (r :: hs, f)
    else ([r], some s)

/-- One iteration's stage executions over the fixed stage list. -/
def runStages (runner : FlowStage → StageResult) : List StageResult × Option FlowStage :=
  runStagesGo runner stagesList

/-- Cross-iteration state of `main`: the accumulated `executor.results`
history, the tuner, and the iteration counter. -/
structure LoopState where
  history : List StageResult
  tuner : TunerState
  iteration : ℕ
deriving Repr

/-- One pass of the `while` body of `main`: increment the iteration counter,
run the stage loop, append all attempts to the history, and — only when the
failed stage is `ROUTING` — call `adjust_for_routing_congestion`.  Returns
the new state and the failed stage (`none` means the flow succeeded and the
loop breaks). -/
def loopIteration (runner : FlowStage → StageResult) (st : LoopState) :
    LoopState × Option FlowStage :=
  match runStages runner with
  | (results, none) =>
    (⟨st.history ++ results, st.tuner, st.iteration + 1⟩, none)
  | (results, some s) =>
    if s = FlowStage.routing then
      (⟨st.history ++ results, adjust_for_routing_congestion st.tuner, st.iteration + 1⟩, some s)
    else
      (⟨st.history ++ results, st.tuner, st.iteration + 1⟩, some s)

/-- The `while iteration < max_iterations` loop of `main`, with the stage
runner injected per iteration (its first argument is the iteration number
about to run).  The remaining budget `max_iterations - iteration` is the
structural fuel. -/
def mainLoop (runner : ℕ → FlowStage → StageResult) : ℕ → LoopState → LoopState
  | 0, st => st
  | fuel + 1, st =>
    match loopIteration (runner (st.iteration + 1)) st with
    | (st1, none) => st1
    | (st1, some _) => mainLoop runner fuel st1

/-- A full run of `main`'s automation loop from a fresh executor history,
iteration 0, and the given initial tuner state. -/
def mainRun (runner : ℕ → FlowStage → StageResult) (max_iterations : ℕ)
    (t0 : TunerState) : LoopState :=
  mainLoop runner max_iterations ⟨[], t0, 0⟩

/-- Number of stage attempts recorded by one iteration: the index of the
first failed stage plus one, or 6 when every stage succeeds (the length of
the successful prefix is the index of the first failure). -/
def iterCount (r : FlowStage → StageResult) : ℕ :=
  min ((stagesList.takeWhile (fun s => (r s).success)).length + 1) 6

/-! ### Supporting lemmas -/
theorem takeWhile_length_le (p : Char → Bool) : ∀ l : List Char, (l.takeWhile p).length ≤ l.length := by
  intro l
  induction l with
  | nil => simp
  | cons a t ih =>
    rw [List.takeWhile_cons]
    cases h : p a
    · simp
    · simp only [if_true, List.length_cons]
      omega

theorem matchSlackAt_rest_length {l cap rest : List Char}
    (h : matchSlackAt l = some (cap, rest)) : rest.length < l.length := by
  unfold matchSlackAt at h
  split at h
  · dsimp only at h
    split at h
    · simp at h
    · rename_i r2 hkw
      split at h
      · simp at h
      · split at h
        · simp at h
        · rename_i hsp hcap
          simp only [Option.some.injEq, Prod.mk.injEq] at h
          obtain ⟨hc, hr⟩ := h
          subst hr
          have h1 : r2.length ≤ l.length - "slack (".toList.length := by
            split at hkw
            · simp only [Option.some.injEq] at hkw
              subst hkw
              simp only [List.length_drop]
              omega
            · split at hkw
              · simp only [Option.some.injEq] at hkw
                subst hkw
                simp only [List.length_drop]
                omega
              · simp at hkw
          have h2 : ((r2.drop (r2.takeWhile isPySpace).length).takeWhile isSlackNumChar).length ≤
              (r2.drop (r2.takeWhile isPySpace).length).length :=
            takeWhile_length_le _ _
          have h3 : 0 < ((r2.drop (r2.takeWhile isPySpace).length).takeWhile isSlackNumChar).length := by
            rw [List.length_pos]
            intro hnil
            rw [hnil] at hcap
            simp at hcap
          simp only [List.length_drop] at *
          omega
  · simp at h

theorem findallSlackGo_fuel :
    ∀ (fuel fuel2 : ℕ) (l : List Char), l.length ≤ fuel → l.length ≤ fuel2 →
      findallSlackGo fuel l = findallSlackGo fuel2 l := by
  intro fuel
  induction fuel with
  | zero =>
    intro fuel2 l h1 _
    have : l = [] := List.length_eq_zero.mp (by omega)
    subst this
    cases fuel2 <;> rfl
  | succ n ih =>
    intro fuel2 l h1 h2
    cases l with
    | nil => cases fuel2 <;> rfl
    | cons c t =>
      cases fuel2 with
      | zero => simp at h2
      | succ m =>
        simp only [findallSlackGo]
        cases hm : matchSlackAt (c :: t) with
        | none =>
          exact ih m t (by simp at h1; omega) (by simp at h2; omega)
        | some pr =>
          obtain ⟨cp, rest⟩ := pr
          dsimp only
          have hlt := matchSlackAt_rest_length hm
          simp only [List.length_cons] at h1 h2 hlt
          rw [ih m rest (by omega) (by omega)]

theorem countErrorTagsGo_fuel :
    ∀ (fuel fuel2 : ℕ) (l : List Char), l.length ≤ fuel → l.length ≤ fuel2 →
      countErrorTagsGo fuel l = countErrorTagsGo fuel2 l := by
  intro fuel
  induction fuel with
  | zero =>
    intro fuel2 l h1 _
    have : l = [] := List.length_eq_zero.mp (by omega)
    subst this
    cases fuel2 <;> rfl
  | succ n ih =>
    intro fuel2 l h1 h2
    cases l with
    | nil => cases fuel2 <;> rfl
    | cons c t =>
      cases fuel2 with
      | zero => simp at h2
      | succ m =>
        simp only [countErrorTagsGo]
        simp only [List.length_cons] at h1 h2
        by_cases hp : "[ERROR]".toList.isPrefixOf (c :: t) = true
        · simp only [hp, if_true]
          rw [ih m _ (by simp [List.length_drop]; omega) (by simp [List.length_drop]; omega)]
        · simp only [hp, if_false]
          exact ih m t (by omega) (by omega)

/-! ### Supporting lemmas about the configuration map -/

theorem cfgGet_replace_self {m : ConfigMap} {k : String} (v d : ℚ)
    (h : cfgMem m k = true) : cfgGet (cfgReplace m k v) k d = v := by
  induction m with
  | nil => simp [cfgMem] at h
  | cons kv rest ih =>
    by_cases hk : kv.1 = k
    · simp [cfgReplace, hk, cfgGet]
    · simp only [cfgMem, hk, if_false] at h
      simp [cfgReplace, hk, cfgGet, ih h]

theorem cfgGet_append_self {m : ConfigMap} {k : String} (v d : ℚ)
    (h : cfgMem m k = false) : cfgGet (m ++ [(k, v)]) k d = v := by
  induction m with
  | nil => simp [cfgGet]
  | cons kv rest ih =>
    by_cases hk : kv.1 = k
    · simp [cfgMem, hk] at h
    · simp only [cfgMem, hk, if_false] at h
      simp [cfgGet, hk, ih h]

theorem cfgGet_set_self (m : ConfigMap) (k : String) (v d : ℚ) :
    cfgGet (cfgSet m k v) k d = v := by
  unfold cfgSet
  cases h : cfgMem m k
  · rw [if_neg Bool.false_ne_true]
    exact cfgGet_append_self v d h
  · rw [if_pos rfl]
    exact cfgGet_replace_self v d h

theorem cfgGet_replace_ne {m : ConfigMap} {k k' : String} (v d : ℚ)
    (h : k' ≠ k) : cfgGet (cfgReplace m k v) k' d = cfgGet m k' d := by
  induction m with
  | nil => rfl
  | cons kv rest ih =>
    by_cases hk : kv.1 = k
    · simp only [cfgReplace, if_pos hk, cfgGet]
      rw [if_neg (fun he => h he.symm), if_neg (hk ▸ fun he => h he.symm)]
      exact ih
    · simp only [cfgReplace, if_neg hk, cfgGet]
      by_cases hk' : kv.1 = k'
      · rw [if_pos hk', if_pos hk']
      · rw [if_neg hk', if_neg hk']
        exact ih

theorem cfgGet_append_ne {m : ConfigMap} {k k' : String} (v d : ℚ)
    (h : k' ≠ k) : cfgGet (m ++ [(k, v)]) k' d = cfgGet m k' d := by
  induction m with
  | nil =>
    have : ¬(k = k') := fun he => h he.symm
    simp [cfgGet, this]
  | cons kv rest ih =>
    by_cases hk' : kv.1 = k'
    · simp [cfgGet, hk']
    · simp [cfgGet, hk', ih]

theorem cfgGet_set_ne (m : ConfigMap) {k k' : String} (v d : ℚ)
    (h : k' ≠ k) : cfgGet (cfgSet m k v) k' d = cfgGet m k' d := by
  unfold cfgSet
  cases hm : cfgMem m k
  · rw [if_neg Bool.false_ne_true]
    exact cfgGet_append_ne v d h
  · rw [if_pos rfl]
    exact cfgGet_replace_ne v d h

theorem cfgGet_mem_default {m : ConfigMap} {k : String} (d1 d2 : ℚ)
    (h : cfgMem m k = true) : cfgGet m k d1 = cfgGet m k d2 := by
  induction m with
  | nil => simp [cfgMem] at h
  | cons kv rest ih =>
    by_cases hk : kv.1 = k
    · simp [cfgGet, hk]
    · simp only [cfgMem, hk, if_false] at h
      simp [cfgGet, hk, ih h]

theorem cfgGet_not_mem {m : ConfigMap} {k : String} (d : ℚ)
    (h : cfgMem m k = false) : cfgGet m k d = d := by
  induction m with
  | nil => rfl
  | cons kv rest ih =>
    by_cases hk : kv.1 = k
    · simp [cfgMem, hk] at h
    · simp only [cfgMem, hk, if_false] at h
      simp [cfgGet, hk, ih h]

/-! ### The three field formulas of `adjust_for_routing_congestion` -/

theorem adjust_density_eq (t : TunerState) (d : ℚ) :
    cfgGet (adjust_for_routing_congestion t).config "PL_TARGET_DENSITY" d =
      max (40/100) (cfgGet t.config "PL_TARGET_DENSITY" (55/100) - 10/100) := by
  unfold adjust_for_routing_congestion
  rw [cfgGet_set_ne _ _ _ (by decide), cfgGet_set_ne _ _ _ (by decide), cfgGet_set_self]

theorem adjust_util_eq (t : TunerState) (d : ℚ) :
    cfgGet (adjust_for_routing_congestion t).config "FP_CORE_UTIL" d =
      max 35 (cfgGet t.config "FP_CORE_UTIL" 50 - 10) := by
  unfold adjust_for_routing_congestion
  rw [cfgGet_set_ne _ _ _ (by decide), cfgGet_set_self]

theorem adjust_glb_eq (t : TunerState) (d : ℚ) :
    cfgGet (adjust_for_routing_congestion t).config "GLB_RT_ADJUSTMENT" d = 20/100 := by
  unfold adjust_for_routing_congestion
  rw [cfgGet_set_self]

theorem adjust_store_eq (t : TunerState) :
    (adjust_for_routing_congestion t).store = (adjust_for_routing_congestion t).config := rfl

/-! ### Supporting lemmas about the iteration loop -/

theorem runStagesGo_eq (r : FlowStage → StageResult) :
    ∀ L : List FlowStage,
      runStagesGo r L =
        ((L.take ((L.takeWhile (fun s => (r s).success)).length + 1)).map r,
          L[(L.takeWhile (fun s => (r s).success)).length]?) := by
  intro L
  induction L with
  | nil => simp [runStagesGo]
  | cons s rest ih =>
    rw [runStagesGo]
    cases h : (r s).success
    · simp [h, List.takeWhile_cons]
    · simp only [h, if_true, ih, List.takeWhile_cons, List.length_cons,
        List.take_succ_cons, List.map_cons, List.getElem?_cons_succ]

theorem runStages_len (r : FlowStage → StageResult) :
    (runStages r).1.length = iterCount r := by
  rw [runStages, runStagesGo_eq]
  simp only [iterCount, List.length_map, List.length_take]
  have hlen : stagesList.length = 6 := rfl
  rw [hlen]

theorem loopIteration_history (r0 : FlowStage → StageResult) (st : LoopState) :
    (loopIteration r0 st).1.history = st.history ++ (runStages r0).1 := by
  unfold loopIteration
  rcases h : runStages r0 with ⟨results, failed⟩
  cases failed
  · rfl
  · dsimp only
    split <;> rfl

theorem loopIteration_iteration (r0 : FlowStage → StageResult) (st : LoopState) :
    (loopIteration r0 st).1.iteration = st.iteration + 1 := by
  unfold loopIteration
  rcases h : runStages r0 with ⟨results, failed⟩
  cases failed
  · rfl
  · dsimp only
    split <;> rfl

theorem mainLoop_iteration_mono (runner : ℕ → FlowStage → StageResult) :
    ∀ (fuel : ℕ) (st : LoopState), st.iteration ≤ (mainLoop runner fuel st).iteration := by
  intro fuel
  induction fuel with
  | zero => intro st; simp [mainLoop]
  | succ n ih =>
    intro st
    rw [mainLoop]
    rcases h : loopIteration (runner (st.iteration + 1)) st with ⟨st1, failed⟩
    have h1 : st1.iteration = st.iteration + 1 := by
      have := loopIteration_iteration (runner (st.iteration + 1)) st
      rw [h] at this
      exact this
    cases failed
    · dsimp only
      omega
    · dsimp only
      have := ih st1
      omega

theorem mainLoop_history_length (runner : ℕ → FlowStage → StageResult) :
    ∀ (fuel : ℕ) (st : LoopState),
      (mainLoop runner fuel st).history.length =
        st.history.length +
          (((List.range ((mainLoop runner fuel st).iteration - st.iteration)).map
              (fun k => iterCount (runner (st.iteration + k + 1)))).sum) := by
  intro fuel
  induction fuel with
  | zero => intro st; simp [mainLoop]
  | succ n ih =>
    intro st
    rw [mainLoop]
    rcases h : loopIteration (runner (st.iteration + 1)) st with ⟨st1, failed⟩
    have h1 : st1.iteration = st.iteration + 1 := by
      have := loopIteration_iteration (runner (st.iteration + 1)) st
      rw [h] at this
      exact this
    have h2 : st1.history.length = st.history.length + iterCount (runner (st.iteration + 1)) := by
      have := loopIteration_history (runner (st.iteration + 1)) st
      rw [h] at this
      rw [this, List.length_append, runStages_len]
    cases failed
    · dsimp only
      rw [h2, h1]
      simp [List.range_succ]
    · dsimp only
      rw [ih st1, h2, h1]
      have hmono := mainLoop_iteration_mono runner n st1
      rw [h1] at hmono
      set F := mainLoop runner n st1 with hF
      have hd : F.iteration - st.iteration = (F.iteration - (st.iteration + 1)) + 1 := by omega
      rw [hd, List.range_succ_eq_map]
      have harg : ((fun k => iterCount (runner (st.iteration + k + 1))) ∘ Nat.succ) =
          (fun k => iterCount (runner (st.iteration + 1 + k + 1))) := by
        funext k
        show iterCount (runner (st.iteration + (k + 1) + 1)) = _
        have he : st.iteration + (k + 1) + 1 = st.iteration + 1 + k + 1 := by omega
        rw [he]
      simp only [List.map_cons, List.map_map, harg, List.sum_cons, Nat.add_zero]
      omega

/-! ### Claim theorems -/

/-- C8: For every TimingMetrics value, `has_violations()` returns true if and
only if WNS < 0 or WHS < 0. -/
theorem C8_has_violations_iff (m : TimingMetrics) :
    m.has_violations = true ↔ (m.wns < 0 ∨ m.whs < 0) := by
  simp [TimingMetrics.has_violations]

theorem C8_has_violations_iff_witness :
    (⟨-1, -1, 0, 0, 11, 10⟩ : TimingMetrics).has_violations = true ↔
      ((⟨-1, -1, 0, 0, 11, 10⟩ : TimingMetrics).wns < 0 ∨
        (⟨-1, -1, 0, 0, 11, 10⟩ : TimingMetrics).whs < 0) :=
  C8_has_violations_iff ⟨-1, -1, 0, 0, 11, 10⟩

/-- C3: Every call to `adjust_for_routing_congestion` sets PL_TARGET_DENSITY
to max(0.40, density − 0.10) with density read at default 0.55, FP_CORE_UTIL
to max(35, utilization − 10) with utilization read at default 50, sets
GLB_RT_ADJUSTMENT to the absolute value 0.20, and persists the entire
configuration map to the external store before returning. -/
theorem C3_adjust_formulas (t : TunerState) :
    cfgGet (adjust_for_routing_congestion t).config "PL_TARGET_DENSITY" 0 =
      max (40/100) (cfgGet t.config "PL_TARGET_DENSITY" (55/100) - 10/100) ∧
    cfgGet (adjust_for_routing_congestion t).config "FP_CORE_UTIL" 0 =
      max 35 (cfgGet t.config "FP_CORE_UTIL" 50 - 10) ∧
    cfgGet (adjust_for_routing_congestion t).config "GLB_RT_ADJUSTMENT" 0 = 20/100 ∧
    (adjust_for_routing_congestion t).store = (adjust_for_routing_congestion t).config :=
  ⟨adjust_density_eq t 0, adjust_util_eq t 0, adjust_glb_eq t 0, adjust_store_eq t⟩

theorem C3_adjust_formulas_witness :
    cfgGet (adjust_for_routing_congestion ⟨[], []⟩).config "PL_TARGET_DENSITY" 0 = 45/100 ∧
    (adjust_for_routing_congestion (⟨[], []⟩ : TunerState)).store =
      (adjust_for_routing_congestion (⟨[], []⟩ : TunerState)).config := by
  have h := C3_adjust_formulas ⟨[], []⟩
  exact ⟨by rw [h.1]; norm_num [cfgGet, max_def], h.2.2.2⟩

theorem adjust_floor (s : TunerState) :
    40/100 ≤ cfgGet (adjust_for_routing_congestion s).config "PL_TARGET_DENSITY" 0 ∧
    35 ≤ cfgGet (adjust_for_routing_congestion s).config "FP_CORE_UTIL" 0 := by
  rw [adjust_density_eq, adjust_util_eq]
  exact ⟨le_max_left _ _, le_max_left _ _⟩

theorem adjustIter_floor :
    ∀ (m : ℕ) (s : TunerState),
      40/100 ≤ cfgGet (adjustIter m (adjust_for_routing_congestion s)).config "PL_TARGET_DENSITY" 0 ∧
      35 ≤ cfgGet (adjustIter m (adjust_for_routing_congestion s)).config "FP_CORE_UTIL" 0 := by
  intro m
  induction m with
  | zero => intro s; exact adjust_floor s
  | succ k ih =>
    intro s
    show 40/100 ≤ cfgGet (adjustIter k (adjust_for_routing_congestion
        (adjust_for_routing_congestion s))).config "PL_TARGET_DENSITY" 0 ∧ _
    exact ih (adjust_for_routing_congestion s)

/-- C4: adjust_for_routing_congestion never drives PL_TARGET_DENSITY below
0.40 nor FP_CORE_UTIL below 35 over any number (≥ 1) of repeated calls from
any starting configuration, and once the floors 0.40 / 35 are reached a
further call leaves those two parameters unchanged. -/
theorem C4_floors (t : TunerState) (n : ℕ) (h : 1 ≤ n) :
    (40/100 ≤ cfgGet (adjustIter n t).config "PL_TARGET_DENSITY" 0 ∧
      35 ≤ cfgGet (adjustIter n t).config "FP_CORE_UTIL" 0) ∧
    (cfgGet t.config "PL_TARGET_DENSITY" 0 = 40/100 →
      cfgGet (adjust_for_routing_congestion t).config "PL_TARGET_DENSITY" 0 = 40/100) ∧
    (cfgGet t.config "FP_CORE_UTIL" 0 = 35 →
      cfgGet (adjust_for_routing_congestion t).config "FP_CORE_UTIL" 0 = 35) := by
  refine ⟨?_, ?_, ?_⟩
  · cases n with
    | zero => omega
    | succ m => exact adjustIter_floor m t
  · intro hd
    rw [adjust_density_eq]
    cases hm : cfgMem t.config "PL_TARGET_DENSITY"
    · rw [cfgGet_not_mem 0 hm] at hd
      exact absurd hd (by norm_num)
    · rw [cfgGet_mem_default (55/100) 0 hm, hd]
      norm_num [max_def]
  · intro hu
    rw [adjust_util_eq]
    cases hm : cfgMem t.config "FP_CORE_UTIL"
    · rw [cfgGet_not_mem 0 hm] at hu
      exact absurd hu (by norm_num)
    · rw [cfgGet_mem_default 50 0 hm, hu]
      norm_num [max_def]

theorem C4_floors_witness :
    1 ≤ 2 ∧
    (40/100 ≤ cfgGet (adjustIter 2 ⟨[], []⟩).config "PL_TARGET_DENSITY" 0 ∧
      35 ≤ cfgGet (adjustIter 2 ⟨[], []⟩).config "FP_CORE_UTIL" 0) :=
  ⟨by norm_num, (C4_floors ⟨[], []⟩ 2 (by norm_num)).1⟩

/-- C10: Constructing a ConfigParameterTuner on a config path whose file does
not exist, or whose contents the JSON decoder rejects, raises (returns
`.error`) before any adjustment operation can run: the eager load at
construction has no graceful-degradation branch. -/
theorem C10_tuner_init_raises (fs : FileSystem)
    (jsonLoad : String → Option ConfigMap) (p : String)
    (h : fs p = none ∨ ∃ c, fs p = some c ∧ jsonLoad c = none) :
    ∃ e, tunerInit fs jsonLoad p = Except.error e := by
  rcases h with h | ⟨c, hc, hj⟩
  · refine ⟨"FileNotFoundError: " ++ p, ?_⟩
    simp [tunerInit, h]
  · refine ⟨"JSONDecodeError", ?_⟩
    simp [tunerInit, hc, hj]

theorem C10_tuner_init_raises_witness :
    ((fun _ => none : FileSystem) "config.json" = none) ∧
    ∃ e, tunerInit (fun _ => none) (fun _ => none) "config.json" = Except.error e :=
  ⟨rfl, C10_tuner_init_raises (fun _ => none) (fun _ => none) "config.json" (Or.inl rfl)⟩

/-- C1 (amended): on a missing file no parser raises; the synthesis and
timing parsers return their default metrics together with exactly one error
string containing the missing path, but the routing/DRC parser returns an
empty error list, and the timing default metrics have clock_period 10.0
rather than all-zero fields. -/
theorem C1_missing_file_behavior (fs : FileSystem) (p : String) (h : fs p = none) :
    parse_stat_report fs p =
      Except.ok (⟨0, 0, 0, 0, 0⟩, ["Synthesis report not found: " ++ p]) ∧
    parse_sta_report fs p =
      Except.ok (⟨0, 0, 0, 0, 0, 10⟩, ["Timing report not found: " ++ p]) ∧
    parse_drc_report fs p = Except.ok (⟨0, 0, 0, 0, 0⟩, []) := by
  refine ⟨?_, ?_, ?_⟩ <;>
    simp [parse_stat_report, parse_sta_report, parse_drc_report, h]

theorem C1_missing_file_behavior_witness :
    ((fun _ => none : FileSystem) "missing.rpt" = none) ∧
    parse_drc_report (fun _ => none) "missing.rpt" =
      Except.ok (⟨0, 0, 0, 0, 0⟩, ([] : List String)) :=
  ⟨rfl, (C1_missing_file_behavior (fun _ => none) "missing.rpt" rfl).2.2⟩

/-- C1 counterexample to the claim as stated: at the concrete missing path
`"missing.rpt"` the routing/DRC parser returns an error list of length 0
(not ≥ 1, and containing no path), and the timing parser's returned metrics
are not zero-valued (clock_period is 10, not 0). -/
theorem C1_counterexample :
    parse_drc_report (fun _ => none) "missing.rpt" =
      Except.ok (⟨0, 0, 0, 0, 0⟩, ([] : List String)) ∧
    parse_sta_report (fun _ => none) "missing.rpt" =
      Except.ok (⟨0, 0, 0, 0, 0, 10⟩, ["Timing report not found: missing.rpt"]) := by
  constructor <;> rfl

theorem runStages_eq (r : FlowStage → StageResult) :
    runStages r =
      ((stagesList.take ((stagesList.takeWhile (fun s => (r s).success)).length + 1)).map r,
        stagesList[(stagesList.takeWhile (fun s => (r s).success)).length]?) :=
  runStagesGo_eq r stagesList

theorem loopIteration_snd (r0 : FlowStage → StageResult) (st : LoopState) :
    (loopIteration r0 st).2 = (runStages r0).2 := by
  unfold loopIteration
  rcases h : runStages r0 with ⟨results, failed⟩
  cases failed
  · rfl
  · dsimp only
    split <;> rfl

theorem loopIteration_tuner (r0 : FlowStage → StageResult) (st : LoopState) :
    (loopIteration r0 st).1.tuner =
      (if (runStages r0).2 = some FlowStage.routing
       then adjust_for_routing_congestion st.tuner else st.tuner) := by
  unfold loopIteration
  rcases h : runStages r0 with ⟨results, failed⟩
  cases failed
  · simp
  · rename_i s
    dsimp only
    by_cases hs : s = FlowStage.routing
    · subst hs
      simp
    · rw [if_neg hs, if_neg (fun hc => hs (Option.some.inj hc))]

/-- C2: In every iteration of the control loop the stage history grows by
exactly the stages up to and including the first failure (no later stage
runs), the recorded failed stage is that first failure, and the tuner state
is changed — to `adjust_for_routing_congestion` of the previous state — only
when the failed stage is routing; a failure at any other stage, or a fully
successful iteration, leaves the configuration state completely unchanged. -/
theorem C2_iteration_frame (runner : FlowStage → StageResult) (st : LoopState) :
    (loopIteration runner st).1.history =
      st.history ++
        (stagesList.take ((stagesList.takeWhile (fun s => (runner s).success)).length + 1)).map
          runner ∧
    (loopIteration runner st).2 =
      stagesList[(stagesList.takeWhile (fun s => (runner s).success)).length]? ∧
    ((loopIteration runner st).2 = some FlowStage.routing →
      (loopIteration runner st).1.tuner = adjust_for_routing_congestion st.tuner) ∧
    (∀ s, (loopIteration runner st).2 = some s → s ≠ FlowStage.routing →
      (loopIteration runner st).1.tuner = st.tuner) ∧
    ((loopIteration runner st).2 = none → (loopIteration runner st).1.tuner = st.tuner) := by
  refine ⟨?_, ?_, ?_, ?_, ?_⟩
  · simpa only [runStages_eq] using loopIteration_history runner st
  · simpa only [runStages_eq] using loopIteration_snd runner st
  · intro hrt
    rw [loopIteration_tuner runner st,
      if_pos ((loopIteration_snd runner st).symm.trans hrt)]
  · intro s hsome hne
    rw [loopIteration_tuner runner st, if_neg]
    intro hc
    have h2 : (loopIteration runner st).2 = some FlowStage.routing :=
      (loopIteration_snd runner st).trans hc
    rw [hsome] at h2
    exact hne (Option.some.inj h2)
  · intro hnone
    rw [loopIteration_tuner runner st, if_neg]
    intro hc
    have h2 : (loopIteration runner st).2 = some FlowStage.routing :=
      (loopIteration_snd runner st).trans hc
    rw [hnone] at h2
    exact Option.noConfusion h2

/-- A stage runner on which every stage succeeds (the mock behaviour of
`OpenLaneFlowExecutor.run_stage` in the source). -/
def runnerOk : FlowStage → StageResult :=
  fun s => ⟨s, true, 10, none, none, none, [], []⟩

theorem C2_iteration_frame_witness :
    (loopIteration runnerOk ⟨[], ⟨[], []⟩, 0⟩).2 = none ∧
    (loopIteration runnerOk ⟨[], ⟨[], []⟩, 0⟩).1.tuner = (⟨[], []⟩ : TunerState) :=
  ⟨rfl, (C2_iteration_frame runnerOk ⟨[], ⟨[], []⟩, 0⟩).2.2.2.2 rfl⟩

/-- C9: For every run of the iteration controller with an arbitrary injected
stage runner, every stage attempt is appended to the history, so the final
history length equals the sum over the executed iterations of (index of the
first failed stage + 1), a summand that is 6 for an iteration in which every
stage succeeds. -/
theorem C9_history_length (runner : ℕ → FlowStage → StageResult)
    (max_iterations : ℕ) (t0 : TunerState) :
    (mainRun runner max_iterations t0).history.length =
      ((List.range (mainRun runner max_iterations t0).iteration).map
          (fun k => iterCount (runner (k + 1)))).sum ∧
    ∀ r : FlowStage → StageResult, (∀ s, (r s).success = true) → iterCount r = 6 := by
  constructor
  · have h := mainLoop_history_length runner max_iterations ⟨[], t0, 0⟩
    simpa [mainRun] using h
  · intro r hr
    simp [iterCount, stagesList, List.takeWhile_cons, hr]

theorem C9_history_length_witness : iterCount runnerOk = 6 :=
  (C9_history_length (fun _ => runnerOk) 3 ⟨[], []⟩).2 runnerOk (fun _ => rfl)

/-- C5: for every timing report file that exists whose matched slack captures
all convert to floats, parse never raises and returns WNS = min of the
matched slack values (0 when there is no match) and TNS = sum of the
strictly negative matched slack values. -/
theorem C5_sta_min_sum (fs : FileSystem) (p content : String) (slacks : List ℚ)
    (hfs : fs p = some content)
    (hparse : parseFloats (findallSlack content.toList) = some slacks) :
    ∃ tm errs, parse_sta_report fs p = Except.ok (tm, errs) ∧
      tm.wns = (if slacks = [] then 0 else listMin slacks) ∧
      tm.tns = (slacks.filter (fun q => decide (q < 0))).sum := by
  unfold parse_sta_report
  rw [hfs]
  dsimp only
  cases hml : findallSlack content.toList with
  | nil =>
    rw [hml] at hparse
    simp only [parseFloats, Option.some.injEq] at hparse
    subst hparse
    exact ⟨_, _, rfl, by simp, by simp⟩
  | cons c caps =>
    rw [hml] at hparse
    have hne : slacks ≠ [] := by
      intro hnil
      subst hnil
      rcases hq : pyFloatSigned? c with _ | q <;>
        rcases hqs : parseFloats caps with _ | qs <;>
          simp [parseFloats, hq, hqs] at hparse
    dsimp only
    rw [hparse]
    dsimp only
    exact ⟨_, _, rfl, by rw [if_neg hne], rfl⟩

/-- Concrete timing report used by the C5 witness. -/
def fsSta : FileSystem := fun _ => some "slack (VIOLATED) -1"

theorem C5_sta_min_sum_witness :
    (fsSta "sta.rpt" = some "slack (VIOLATED) -1") ∧
    (parseFloats (findallSlack ("slack (VIOLATED) -1").toList) = some [-1]) ∧
    (∃ tm errs, parse_sta_report fsSta "sta.rpt" = Except.ok (tm, errs) ∧
      tm.wns = (if ([-1] : List ℚ) = [] then 0 else listMin [-1]) ∧
      tm.tns = (([-1] : List ℚ).filter (fun q => decide (q < 0))).sum) :=
  ⟨rfl, by decide, C5_sta_min_sum fsSta "sta.rpt" "slack (VIOLATED) -1" [-1] rfl (by decide)⟩

/-- Well-formedness of an optional float capture: when the chip-area search
matched, its capture converts to a float without raising. -/
def floatCapOk (o : Option (List Char)) : Bool :=
  match o with
  | some cap => (pyFloatUnsigned? cap).isSome
  | none => true

/-- C6: for every synthesis statistics report file that exists (and whose
area capture, when present, converts to a float), parse never raises and
returns total_cells from the first `Number of cells: <int>` match (0 when
absent), total_area from the first `Chip area for module...: <float>` match
(0 when absent), an empty error list either way, and zero core_area,
die_area and utilization. -/
theorem C6_stat_fields (fs : FileSystem) (p content : String)
    (hfs : fs p = some content)
    (hok : floatCapOk (searchChipArea content.toList) = true) :
    ∃ am, parse_stat_report fs p = Except.ok (am, []) ∧
      am.total_cells = ((searchCells content.toList).map digitsToNat).getD 0 ∧
      am.total_area = ((searchChipArea content.toList).bind pyFloatUnsigned?).getD 0 ∧
      am.core_area = 0 ∧ am.die_area = 0 ∧ am.utilization = 0 := by
  unfold parse_stat_report
  rw [hfs]
  dsimp only
  revert hok
  cases ha : searchChipArea content.toList with
  | none =>
    intro hok
    cases hc : searchCells content.toList with
    | none => exact ⟨_, rfl, by simp, by simp, rfl, rfl, rfl⟩
    | some ds => exact ⟨_, rfl, by simp, by simp, rfl, rfl, rfl⟩
  | some cap =>
    intro hok
    simp only [floatCapOk, Option.isSome_iff_exists] at hok
    obtain ⟨a, hA⟩ := hok
    dsimp only
    rw [hA]
    dsimp only
    cases hc : searchCells content.toList with
    | none => exact ⟨_, rfl, by simp, by simp [hA], rfl, rfl, rfl⟩
    | some ds => exact ⟨_, rfl, by simp, by simp [hA], rfl, rfl, rfl⟩

/-- Concrete synthesis report used by the C6 witness. -/
def fsStat : FileSystem := fun _ => some "Number of cells: 7\nChip area for module x: 2.5"

theorem C6_stat_fields_witness :
    (fsStat "stat.rpt" = some "Number of cells: 7\nChip area for module x: 2.5") ∧
    (floatCapOk (searchChipArea ("Number of cells: 7\nChip area for module x: 2.5").toList) =
      true) ∧
    (∃ am, parse_stat_report fsStat "stat.rpt" = Except.ok (am, []) ∧
      am.total_cells =
        ((searchCells ("Number of cells: 7\nChip area for module x: 2.5").toList).map
            digitsToNat).getD 0 ∧
      am.total_area =
        ((searchChipArea ("Number of cells: 7\nChip area for module x: 2.5").toList).bind
            pyFloatUnsigned?).getD 0 ∧
      am.core_area = 0 ∧ am.die_area = 0 ∧ am.utilization = 0) :=
  ⟨rfl, by decide,
    C6_stat_fields fsStat "stat.rpt" "Number of cells: 7\nChip area for module x: 2.5"
      rfl (by decide)⟩

/-- C7: for every DRC report file that exists, parse never raises and sets
drc_violations to the explicit `Total DRC violations: <int>` count when one
matches, otherwise to the number of `[ERROR]` occurrences, and the error
list is exactly `["Found <count> DRC violations"]` when the count is
positive and empty otherwise. -/
theorem C7_drc_count (fs : FileSystem) (p content : String)
    (hfs : fs p = some content) :
    parse_drc_report fs p =
      Except.ok
        (⟨((searchDrcTotal content.toList).map digitsToNat).getD (countErrorTags content.toList),
            0, 0, 0, 0⟩,
          if 0 < ((searchDrcTotal content.toList).map digitsToNat).getD
              (countErrorTags content.toList)
          then ["Found " ++
              toString (((searchDrcTotal content.toList).map digitsToNat).getD
                (countErrorTags content.toList)) ++ " DRC violations"]
          else []) := by
  unfold parse_drc_report
  rw [hfs]
  dsimp only
  cases hd : searchDrcTotal content.toList <;> simp

/-- Concrete DRC report (three `[ERROR]` lines, no explicit total) used by
the C7 witness; it realizes the spec scenario with count 3. -/
def fsDrc : FileSystem := fun _ => some "[ERROR] a\n[ERROR] b\n[ERROR] c"

theorem C7_drc_count_witness :
    (fsDrc "drc.rpt" = some "[ERROR] a\n[ERROR] b\n[ERROR] c") ∧
    parse_drc_report fsDrc "drc.rpt" =
      Except.ok (⟨3, 0, 0, 0, 0⟩, ["Found 3 DRC violations"]) :=
  ⟨rfl, by
    have h := C7_drc_count fsDrc "drc.rpt" "[ERROR] a\n[ERROR] b\n[ERROR] c" rfl
    exact h.trans (congrArg Except.ok (by decide))⟩
